import Mathlib

/-!
Verification of the execution-and-verdict engine in `src/eval/testing_util.py`.

The development shallowly embeds the data flow of `run_code_on_test` and its
helpers.  Python values that flow through the equivalence cascade are modelled
by the inductive type `PyVal`; Python floats are modelled as exact rationals
(faithful for the decimal literals exercised by the cascade); Python string
operations are modelled by structurally recursive functions over the character
list of a `String`.  The actual execution of untrusted candidate code
(compilation by `RuntimeModule.from_string`, the per-case invocation under the
`signal.alarm` deadline) is external, arbitrary Python code and is therefore
modelled by an oracle (`Candidate`): a load success flag plus, per test-case
index, either a returned value or a raised exception (call-based mode), or a
list of captured stdout lines plus a termination kind (standard-input mode).
Everything downstream of the oracle - sentinel encoding, in-place rewriting of
the stored expected outputs, and the full comparison cascade - is transcribed
from the source.  A Python-level exception that the source does not catch is
modelled as `Except.error ()`.
-/

set_option autoImplicit false

namespace TestingUtil

/-! ### Python string primitives, over the character list of a `String` -/

/-- Whitespace as recognised by Python `str.strip` / `str.split` (ASCII part). -/
def pyIsSpace (c : Char) : Bool :=
  c = ' ' || c = '\t' || c = '\n' || c = '\r' || c = '\x0b' || c = '\x0c'

/-- Model of Python `s.split(sep)` restricted to the single character `'\n'`:
splitting an empty string gives one empty piece, and separators at the ends
produce empty pieces, exactly as in Python. -/
def chSplitNL : List Char → List (List Char)
  | [] => [[]]
  | c :: rest =>
    if c = '\n' then [] :: chSplitNL rest
    else
      match chSplitNL rest with
      | [] => [[c]]
      | g :: gs => (c :: g) :: gs

/-- Accumulator-based helper for Python `str.split()` (no separator):
maximal runs of non-whitespace characters, empty pieces discarded. -/
def chSplitWsAux (acc : List Char) : List Char → List (List Char)
  | [] => if acc.isEmpty then [] else [acc.reverse]
  | c :: rest =>
    if pyIsSpace c then
      if acc.isEmpty then chSplitWsAux [] rest
      else acc.reverse :: chSplitWsAux [] rest
    else chSplitWsAux (c :: acc) rest

/-- Model of Python `s.strip()`: drop whitespace from both ends. -/
def chTrim (cs : List Char) : List Char :=
  ((cs.dropWhile pyIsSpace).reverse.dropWhile pyIsSpace).reverse

/-- Boolean list-prefix test, used to model Python `str.startswith`. -/
def chPrefix : List Char → List Char → Bool
  | [], _ => true
  | _, [] => false
  | a :: as, b :: bs => a == b && chPrefix as bs

/-- Python `s.split("\n")` on `String`. -/
def splitOnNLStr (s : String) : List String :=
  (chSplitNL s.data).map (fun cs => ⟨cs⟩)

/-- Python `s.split()` (whitespace split, no empty pieces) on `String`. -/
def pySplitWsStr (s : String) : List String :=
  (chSplitWsAux [] s.data).map (fun cs => ⟨cs⟩)

/-- Python `s.strip()` on `String`. -/
def pyStrip (s : String) : String := ⟨chTrim s.data⟩

/-- Python `"\n".join(xs)`. -/
def joinNL : List String → String
  | [] => ""
  | [x] => x
  | x :: rest => x ++ "\n" ++ joinNL rest

/-- Python `s.startswith(p)`. -/
def pyStartswith (s p : String) : Bool := chPrefix p.data s.data

/-! ### Numeric parsing and comparison

Python floats are modelled as exact fractions.  The fractions are kept
unnormalized (numerator and positive denominator, no gcd reduction) so that
every arithmetic operation is plain integer arithmetic; equality and order are
the cross-multiplied rational relations, so the model is exact rational
arithmetic.  This is faithful for the decimal literals exercised by the
verified code paths. -/

/-- An exact (unnormalized) fraction: `num / den` with `den` positive by
construction at every use site. -/
structure PyFloat where
  num : Int
  den : Nat
deriving DecidableEq, Repr

namespace PyFloat

/-- Embed an integer. -/
def ofInt (n : Int) : PyFloat := ⟨n, 1⟩

/-- Rational equality by cross-multiplication. -/
def feq (a b : PyFloat) : Bool := a.num * (b.den : Int) == b.num * (a.den : Int)

/-- Rational order by cross-multiplication (denominators positive). -/
def fle (a b : PyFloat) : Bool :=
  decide (a.num * (b.den : Int) ≤ b.num * (a.den : Int))

/-- Sum. -/
def fadd (a b : PyFloat) : PyFloat :=
  ⟨a.num * (b.den : Int) + b.num * (a.den : Int), a.den * b.den⟩

/-- Difference. -/
def fsub (a b : PyFloat) : PyFloat :=
  ⟨a.num * (b.den : Int) - b.num * (a.den : Int), a.den * b.den⟩

/-- Product. -/
def fmul (a b : PyFloat) : PyFloat := ⟨a.num * b.num, a.den * b.den⟩

/-- Absolute value. -/
def fabs (a : PyFloat) : PyFloat := ⟨a.num.natAbs, a.den⟩

end PyFloat

/-- Accumulate a decimal digit string into a natural number. -/
def chDigits : List Char → Nat → Nat
  | [], acc => acc
  | c :: rest, acc => chDigits rest (acc * 10 + (c.toNat - 48))

/-- Model of Python `int(s)` for string arguments: surrounding whitespace,
an optional sign, then decimal digits only. -/
def parseIntPy (s : String) : Option Int :=
  let cs := chTrim s.data
  let p : Int × List Char :=
    match cs with
    | '+' :: t => (1, t)
    | '-' :: t => (-1, t)
    | _ => (1, cs)
  if ¬ p.2.isEmpty && p.2.all Char.isDigit then
    some (p.1 * (chDigits p.2 0 : Int))
  else none

/-- Model of Python `float(s)` for decimal literals: surrounding whitespace,
optional sign, integer and/or fractional digits, optional decimal exponent.
(Special forms such as `inf` and `nan` are not produced by the code paths
verified here and are mapped to `none`.)  The result is the exact rational
value of the literal. -/
def parseFloatQ (s : String) : Option PyFloat :=
  let cs := chTrim s.data
  let p : Int × List Char :=
    match cs with
    | '+' :: t => (1, t)
    | '-' :: t => (-1, t)
    | _ => (1, cs)
  let ip := p.2.takeWhile Char.isDigit
  let cs2 := p.2.dropWhile Char.isDigit
  let fpRest : List Char × List Char :=
    match cs2 with
    | '.' :: t => (t.takeWhile Char.isDigit, t.dropWhile Char.isDigit)
    | _ => ([], cs2)
  let fp := fpRest.1
  if ip.isEmpty && fp.isEmpty then none
  else
    let mant : PyFloat :=
      ⟨p.1 * ((chDigits ip 0 : Int) * (10 ^ fp.length : Nat) + (chDigits fp 0 : Int)),
       10 ^ fp.length⟩
    match fpRest.2 with
    | [] => some mant
    | e :: t =>
      if e = 'e' || e = 'E' then
        let q : Bool × List Char :=
          match t with
          | '+' :: r => (true, r)
          | '-' :: r => (false, r)
          | _ => (true, t)
        let ed := q.2.takeWhile Char.isDigit
        let rest := q.2.dropWhile Char.isDigit
        if ed.isEmpty || ¬ rest.isEmpty then none
        else
          some (if q.1 then ⟨mant.num * (10 ^ chDigits ed 0 : Nat), mant.den⟩
                else ⟨mant.num, mant.den * 10 ^ chDigits ed 0⟩)
      else none

/-- Round-half-to-even of the fraction `p / d` (`d` positive), as performed by
Python `round` on the exact value of its argument. -/
def roundHalfEven (p : Int) (d : Nat) : Int :=
  let f : Int := p.fdiv d
  let r : Int := p - f * d
  if 2 * r < (d : Int) then f
  else if (d : Int) < 2 * r then f + 1
  else if f % 2 = 0 then f else f + 1

/-- Model of Python `round(x, 3)`. -/
def pyRound3 (x : PyFloat) : PyFloat := ⟨roundHalfEven (x.num * 1000) x.den, 1000⟩

/-- Elementwise closeness test of `numpy.isclose` with the default tolerances
`rtol = 1e-5`, `atol = 1e-8`: the absolute difference is at most
`atol + rtol * |b|`. -/
def npIsClose (a b : PyFloat) : Bool :=
  PyFloat.fle (PyFloat.fabs (PyFloat.fsub a b))
    (PyFloat.fadd ⟨1, 100000000⟩ (PyFloat.fmul ⟨1, 100000⟩ (PyFloat.fabs b)))

/-- Model of `numpy.allclose` on two equal-length float sequences. -/
def npAllclose : List PyFloat → List PyFloat → Bool
  | [], [] => true
  | a :: as, b :: bs => npIsClose a b && npAllclose as bs
  | _, _ => false

/-! ### Python values -/

/-- Python values flowing through the harness: ints, floats (modelled as exact
rationals), strings, lists, tuples, sets / frozensets (one constructor, since
Python `set` and `frozenset` compare equal when their elements do), and dicts
as association lists.  Python booleans do not occur on the verified code
paths (`True == 1` in Python would let them be modelled as ints). -/
inductive PyVal where
  | vint : Int → PyVal
  | vfloat : PyFloat → PyVal
  | vstr : String → PyVal
  | vlist : List PyVal → PyVal
  | vtuple : List PyVal → PyVal
  | vset : List PyVal → PyVal
  | vdict : List (PyVal × PyVal) → PyVal
deriving Repr

/-- Fuel-bounded model of Python `==` on `PyVal`.  Numeric values compare
across int/float kinds; lists and tuples compare elementwise but never with
each other; sets compare by double inclusion; dicts by matching entries.  The
fuel decreases on every recursive call, so any bound at least the nesting
depth of the arguments gives the true Python answer (Python itself raises
`RecursionError` near depth 1000). -/
def pyEqF : Nat → PyVal → PyVal → Bool
  | 0, _, _ => false
  | fuel + 1, a, b =>
    match a, b with
    | .vint m, .vint n => m == n
    | .vint m, .vfloat q => PyFloat.feq (PyFloat.ofInt m) q
    | .vfloat q, .vint n => PyFloat.feq q (PyFloat.ofInt n)
    | .vfloat p, .vfloat q => PyFloat.feq p q
    | .vstr s, .vstr t => s == t
    | .vlist xs, .vlist ys =>
      xs.length == ys.length && (xs.zip ys).all (fun p => pyEqF fuel p.1 p.2)
    | .vtuple xs, .vtuple ys =>
      xs.length == ys.length && (xs.zip ys).all (fun p => pyEqF fuel p.1 p.2)
    | .vset xs, .vset ys =>
      xs.all (fun x => ys.any (fun y => pyEqF fuel x y)) &&
      ys.all (fun y => xs.any (fun x => pyEqF fuel x y))
    | .vdict xs, .vdict ys =>
      xs.length == ys.length &&
      xs.all (fun p => ys.any (fun q => pyEqF fuel p.1 q.1 && pyEqF fuel p.2 q.2))
    | _, _ => false

/-- Python `==` on `PyVal` (fuel far above any nesting depth reached here). -/
def pyEq (a b : PyVal) : Bool := pyEqF 1000 a b

/-! ### Helpers on `PyVal` mirroring Python built-ins -/

/-- Option-valued sequencing of a fallible map over a list (a raised Python
exception anywhere gives `none`). -/
def mapO {α β : Type} (f : α → Option β) : List α → Option (List β)
  | [] => some []
  | a :: as =>
    match f a, mapO f as with
    | some b, some bs => some (b :: bs)
    | _, _ => none

/-- Except-valued sequencing of a fallible map over a list. -/
def mapE {α β : Type} (f : α → Except Unit β) : List α → Except Unit (List β)
  | [] => .ok []
  | a :: as =>
    match f a, mapE f as with
    | .ok b, .ok bs => .ok (b :: bs)
    | _, _ => .error ()

/-- Python `iter(v)` collected to a list: lists, tuples and sets yield their
elements, strings their characters, dicts their keys; numbers raise. -/
def pyIter : PyVal → Option (List PyVal)
  | .vlist xs => some xs
  | .vtuple xs => some xs
  | .vset xs => some xs
  | .vstr s => some (s.data.map (fun c => PyVal.vstr ⟨[c]⟩))
  | .vdict d => some (d.map (fun p => p.1))
  | _ => none

/-- Python `list(v)`: raises on non-iterables. -/
def pyListOf (v : PyVal) : Option PyVal := (pyIter v).map PyVal.vlist

/-- Python `frozenset(v)`: raises on non-iterables. -/
def pyFrozen (v : PyVal) : Option PyVal := (pyIter v).map PyVal.vset

/-- Python `v[0]`: first element of a list or tuple, first character of a
string; raises (`none`) on empty sequences, numbers, sets, and dicts (a dict
would look up the key `0`, which the fixtures in the verified paths do not
contain). -/
def pyIndex0 : PyVal → Option PyVal
  | .vlist (x :: _) => some x
  | .vtuple (x :: _) => some x
  | .vstr s =>
    match s.data with
    | c :: _ => some (.vstr ⟨[c]⟩)
    | [] => none
  | _ => none

/-- Python `float(v)`: ints and floats convert, strings are parsed as decimal
literals, everything else raises. -/
def pyFloat : PyVal → Option PyFloat
  | .vint n => some (PyFloat.ofInt n)
  | .vfloat q => some q
  | .vstr s => parseFloatQ s
  | _ => none

/-- Python `int(v)`: ints stay, floats truncate toward zero, strings are
parsed; everything else raises. -/
def pyToInt : PyVal → Option Int
  | .vint n => some n
  | .vfloat q => some (q.num.tdiv (q.den : Int))
  | .vstr s => parseIntPy s
  | _ => none

/-- True exactly for string values. -/
def isStr : PyVal → Bool
  | .vstr _ => true
  | _ => false

/-- Extract a string value. -/
def asStr : PyVal → Option String
  | .vstr s => some s
  | _ => none

/-- All elements as strings, or `none`. -/
def allStrings (xs : List PyVal) : Option (List String) := mapO asStr xs

/-! ### Fixture key coercion (testing_util.py lines 215-229)

JSON forces dictionary keys to be strings; the harness undoes this in place,
swallowing every exception of the rewriting attempt. -/

/-- Rebuild a dict with `int(k)` keys; `none` when any key fails to convert
(the exception is caught by the caller and the value left unchanged). -/
def coerceKeys (d : List (PyVal × PyVal)) : Option (List (PyVal × PyVal)) :=
  mapO (fun kv => (pyToInt kv.1).map (fun n => ((PyVal.vint n : PyVal), kv.2))) d

/-- Lines 216-220: if `inputs[0]` is a dict, replace `inputs` by the singleton
list holding the key-coerced dict; any exception leaves `inputs` unchanged. -/
def coerceInputs (inp : PyVal) : PyVal :=
  match pyIndex0 inp with
  | some (.vdict d) =>
    match coerceKeys d with
    | some d2 => .vlist [.vdict d2]
    | none => inp
  | _ => inp

/-- Lines 221-229: the same rewriting applied to `outputs[index]` itself and
then to `outputs[index][0]`, each attempt with its exceptions swallowed. -/
def coerceOutput (out : PyVal) : PyVal :=
  let out1 : PyVal :=
    match out with
    | .vdict d =>
      match coerceKeys d with
      | some d2 => .vlist [.vdict d2]
      | none => out
    | _ => out
  match pyIndex0 out1 with
  | some (.vdict d) =>
    match coerceKeys d with
    | some d2 => .vlist [.vdict d2]
    | none => out1
  | _ => out1

/-! ### Verdicts and the candidate oracle -/

/-- Elements of the result sequence produced by `run_code_on_test`: the Python
list mixes the int sentinels `-2` / `-1` with booleans. -/
inductive RVal where
  | rInt : Int → RVal
  | rBool : Bool → RVal
deriving DecidableEq, Repr

/-- How one standard-input invocation of the candidate terminates: normal
return, `SystemExit` (from `sys.exit()`), or any other exception - the latter
includes the `TimeoutException` raised by the `signal.alarm` deadline handler,
which reaches the harness as an ordinary exception. -/
inductive StdTerm where
  | normal
  | sysExit
  | exn
deriving DecidableEq, Repr

/-- Observable behaviour of one standard-input invocation: the stdout lines
collected by `Capturing` up to termination, and the termination kind. -/
structure StdRun where
  out : List String
  term : StdTerm

/-- Oracle for the externally-executed candidate program: whether
compile/load plus entry-point lookup succeeded (lines 190-212), and the
behaviour of the invocation on each test-case index. -/
structure Candidate where
  loadOk : Bool
  callRun : Nat → Except Unit PyVal
  stdRun : Nat → StdRun

/-- The test fixture `in_outs` as loaded from `input_output.json`. -/
structure InOuts where
  fn_name : Option String
  inputs : List PyVal
  outputs : List PyVal

/-! ### Standard-input helpers (lines 476-519) -/

/-- Line 491-494: `stripped_string_compare`. -/
def stripped_string_compare (s1 s2 : String) : Bool :=
  pyStrip s1 == pyStrip s2

/-- Lines 476-489: `custom_compare_`; the captured output is always a list of
lines, the ground truth must be a string (a non-string raises inside
`stripped_string_compare`, which the callers of this model handle). -/
def custom_compare_ (output : List String) (ground_truth : String) : Bool :=
  stripped_string_compare (joinNL output) ground_truth ||
  stripped_string_compare (joinNL (output.map pyStrip)) ground_truth

/-- Line 275 and 277: `"\n".join(...)` applied when the value is a list; a
list with a non-string element raises (uncaught in `run_code_on_test`),
non-list values pass through unchanged. -/
def joinIfList : PyVal → Except Unit PyVal
  | .vlist xs =>
    match allStrings xs with
    | some ss => .ok (.vstr (joinNL ss))
    | none => .error ()
  | v => .ok v

/-- Lines 496-519: `call_method` joins a list input, splits the transcript for
the stdin mocks (raising on a non-string), invokes the entry point, and
swallows `SystemExit`; every other exception propagates to the caller. -/
def call_method (inp : PyVal) (term : StdTerm) : Except Unit Unit :=
  match joinIfList inp with
  | .error e => .error e
  | .ok (.vstr _) =>
    match term with
    | .exn => .error ()
    | _ => .ok ()
  | .ok _ => .error ()

/-! ### The standard-input comparison cascade (lines 280-455) -/

/-- Lines 317-325 ("check1"): `output == [expected]`, and when the expected
value is a list also `output == expected` and the per-line-stripped variant;
an exception inside the attempt (here only the `output[0]` lookup on an empty
capture) leaves the flag at the value already computed. -/
def check1 (output : List String) (exp : PyVal) : Bool :=
  let t := pyEq (.vlist (output.map PyVal.vstr)) (.vlist [exp])
  match exp with
  | .vlist es =>
    let t := t || pyEq (.vlist (output.map PyVal.vstr)) (.vlist es)
    match output with
    | _ :: _ => t || pyEq (.vlist ((output.map pyStrip).map PyVal.vstr)) (.vlist es)
    | [] => t
  | _ => t

/-- Lines 342-348 ("check2"), repeated verbatim at lines 371-377 ("check3"):
`output == [expected]`, or `output == expected` when the expected value is a
list. -/
def check2 (output : List String) (exp : PyVal) : Bool :=
  let t := pyEq (.vlist (output.map PyVal.vstr)) (.vlist [exp])
  match exp with
  | .vlist es => t || pyEq (.vlist (output.map PyVal.vstr)) (.vlist es)
  | _ => t

/-- Lines 331-340: the stored expected output is rewritten in place - each
line (or the single string) is split on newlines, empty pieces dropped, and
every piece stripped.  Calling `.split` on a non-string raises, uncaught. -/
def splitStripAssign : PyVal → Except Unit PyVal
  | .vlist xs =>
    (mapE (fun i =>
      match i with
      | .vstr s =>
        .ok (PyVal.vlist ((((splitOnNLStr s).filter (fun x => x ≠ "")).map pyStrip).map PyVal.vstr))
      | _ => .error ()) xs).map PyVal.vlist
  | .vstr s =>
    .ok (.vlist ((((splitOnNLStr s).filter (fun x => x ≠ "")).map pyStrip).map PyVal.vstr))
  | _ => .error ()

/-- Lines 379-384: parse every output line and every expected entry as a
float; when all parse and the lengths agree, compare with `np.allclose`.  Any
exception makes the attempt contribute `false`.  (The second, nested attempt
at lines 386-393 guards on `isinstance(output[0], list)`, which is never true
because captured output lines are strings.) -/
def floatCheck (output : List String) (exp : PyVal) : Bool :=
  match mapO parseFloatQ output, (pyIter exp).bind (mapO pyFloat) with
  | some of, some gf => (of.length == gf.length) && npAllclose of gf
  | _, _ => false

/-- Lines 399-404: the stored expected output is rewritten again - every line
becomes the set of its whitespace tokens.  `.split` on a non-string raises,
uncaught. -/
def setSplitAssign : PyVal → Except Unit PyVal
  | .vlist xs =>
    (mapE (fun i =>
      match i with
      | .vstr s => .ok (PyVal.vset ((pySplitWsStr s).map PyVal.vstr))
      | _ => .error ()) xs).map PyVal.vlist
  | .vstr s => .ok (.vset ((pySplitWsStr s).map PyVal.vstr))
  | _ => .error ()

/-- Lines 428-431 ("check5"): compare `set(frozenset(s) for s in output)` with
the same on the expected side; an exception leaves the flag `false`. -/
def check5 (outputSets : List PyVal) (exp : PyVal) : Bool :=
  match mapO pyFrozen outputSets, (pyIter exp).bind (mapO pyFrozen) with
  | some a, some b => pyEq (.vset a) (.vset b)
  | _, _ => false

/-- Lines 434-439 ("check6"): the same set-of-frozensets comparison with every
token parsed as a float and rounded to 3 decimals; an exception leaves the
flag unchanged. -/
def roundFrozen (s : PyVal) : Option PyVal :=
  (pyIter s).bind (fun ts =>
    (mapO (fun t => (pyFloat t).map pyRound3) ts).map
      (fun qs => PyVal.vset (qs.map PyVal.vfloat)))

/-- The rounded set-of-frozensets comparison of lines 434-439. -/
def check6 (outputSets : List PyVal) (exp : PyVal) : Bool :=
  match mapO roundFrozen outputSets, (pyIter exp).bind (mapO roundFrozen) with
  | some a, some b => pyEq (.vset a) (.vset b)
  | _, _ => false

/-- The split-strip rewriting of lines 337-340 on a string value: split on
newlines, drop empty pieces, strip each piece. -/
def splitStripStr (g : String) : List String :=
  ((splitOnNLStr g).filter (fun x => x ≠ "")).map pyStrip

/-- The stored expected output after the in-place rewriting of lines 331-340.
At that program point `outputs[index]` is a string (a non-string would already
have raised inside `custom_compare_`), so the string branch of the assignment
applies: `splitStripAssign (.vstr g) = .ok (expSplit g)` definitionally. -/
def expSplit (g : String) : PyVal :=
  .vlist ((splitStripStr g).map PyVal.vstr)

/-- The stored expected output after the second in-place rewriting, lines
399-404.  At that point `outputs[index]` is the list produced by lines
331-340, so the list branch applies, turning each line into the set of its
whitespace tokens: `setSplitAssign (expSplit g) = .ok (expSets g)`. -/
def expSets (g : String) : PyVal :=
  .vlist ((splitStripStr g).map (fun s => PyVal.vset ((pySplitWsStr s).map PyVal.vstr)))

/-- Lines 355-356: `output = list(filter(len, output))`. -/
def outFilter (out : List String) : List String := out.filter (fun s => s ≠ "")

/-- Lines 417-426: each output line becomes its token list, empty token lists
are dropped, and each token list becomes a set. -/
def outSets (out : List String) : List PyVal :=
  ((out.map pySplitWsStr).filter (fun l => ¬ l.isEmpty)).map
    (fun l => PyVal.vset (l.map PyVal.vstr))

/-- One standard-input test case (lines 270-455), for a candidate that loaded.
Arguments: the raw fixture input, the key-coerced stored expected output, and
the oracle observation of the invocation.  Returns the verdict to append (or
`none` for the verdict-skipping `continue` of line 410, which is unreachable
because Python `==` cannot raise on the value kinds that reach it) together
with the new in-place value of `outputs[index]`; `Except.error` models an
exception that `run_code_on_test` does not catch. -/
def stdCaseRun (inp exp : PyVal) (r : StdRun) : Except Unit (Option RVal × PyVal) :=
  -- line 275: inputs = "\n".join(inputs) when it is a list (uncaught on failure)
  match joinIfList inp with
  | .error e => .error e
  | .ok inp1 =>
  -- lines 277-278: the stored expected output is joined the same way, in place
  match joinIfList exp with
  | .error e => .error e
  | .ok exp1 =>
  -- lines 280-291: Capturing + call_method under the alarm; an exception
  -- appends -1 and moves to the next case
  match call_method inp1 r.term with
  | .error _ => .ok (some (.rInt (-1)), exp1)
  | .ok _ =>
  -- line 307: custom_compare_ raises (uncaught) unless the stored expected
  -- output is a string at this point
  match exp1 with
  | .vstr g =>
    if custom_compare_ r.out g then .ok (some (.rBool true), .vstr g)
    -- line 313: isinstance(output, tuple) is never true for a Capturing list
    else if check1 r.out (.vstr g) then .ok (some (.rBool true), .vstr g)
    -- lines 331-340: in-place rewrite of outputs[index] to expSplit g
    else if check2 r.out (expSplit g) then .ok (some (.rBool true), expSplit g)
    -- lines 355-369: output is filtered; tmp_result is still False there
    -- lines 371-393: check3 (the same comparisons on the filtered output) and
    -- the float comparisons are or-ed together before the test at line 395
    else if check2 (outFilter r.out) (expSplit g) ||
            floatCheck (outFilter r.out) (expSplit g) then
      .ok (some (.rBool true), expSplit g)
    -- lines 399-404: in-place rewrite of outputs[index] to expSets g
    -- lines 406-414: check4
    else if pyEq (.vlist ((outFilter r.out).map PyVal.vstr)) (expSets g) then
      .ok (some (.rBool true), expSets g)
    else
      -- lines 417-444: output lines become token sets; check5 and check6 are
      -- or-ed and the final flag is appended even when False
      .ok (some (.rBool (check5 (outSets (outFilter r.out)) (expSets g) ||
                         check6 (outSets (outFilter r.out)) (expSets g))),
           expSets g)
  | _ => .error ()

/-! ### The call-based comparison (lines 235-264) -/

/-- Lines 242-243: a top-level tuple result is turned into a list ("ground
truth sequences are not tuples"). -/
def tupleNorm : PyVal → PyVal
  | .vtuple xs => .vlist xs
  | v => v

/-- Lines 250-254: when `output[0]` is a tuple, compare
`[list(x) for x in output]` with `expected[0]`; every exception of the attempt
is swallowed. -/
def tupleListCompare (output exp : PyVal) : Bool :=
  match output with
  | .vlist (.vtuple t0 :: rest) =>
    match mapO pyListOf (.vtuple t0 :: rest), pyIndex0 exp with
    | some conv, some e0 => pyEq (.vlist conv) e0
    | _, _ => false
  | _ => false

/-- One call-based test case (lines 235-264): an exception from the invocation
(including the deadline timeout) yields the sentinel `-1`; otherwise the
normalized result is compared with the expected value (line 245), with
`expected[0]` when the expected value is a non-empty list (lines 246-247), and
through the tuple-element conversion (lines 250-254), the three attempts or-ed
into a boolean verdict. -/
def callCase (r : Except Unit PyVal) (exp : PyVal) : RVal :=
  match r with
  | .error _ => .rInt (-1)
  | .ok out0 =>
    .rBool ((match exp with
             | .vlist (e0 :: _) =>
               pyEq (tupleNorm out0) exp || pyEq (tupleNorm out0) e0
             | _ => pyEq (tupleNorm out0) exp) ||
            tupleListCompare (tupleNorm out0) exp)

/-! ### The batch driver (lines 173-455) -/

/-- One test case of the loop body (lines 214-455): key coercion of the input
(local) and of the stored expected output (in place), then the mode-specific
execution and comparison.  Returns the appended verdict (if any) and the new
stored value of `outputs[index]`. -/
def processCase (cand : Candidate) (callBased : Bool) (idx : Nat)
    (inp outAtIdx : PyVal) : Except Unit (Option RVal × PyVal) :=
  let inp1 := coerceInputs inp
  let exp1 := coerceOutput outAtIdx
  if callBased then .ok (some (callCase (cand.callRun idx) exp1), exp1)
  else stdCaseRun inp1 exp1 (cand.stdRun idx)

/-- The `for index, inputs in enumerate(in_outs["inputs"])` loop.  When
`outputs` has no entry at the current index, the call-based branch appends
`-1` (the lookup at line 245 raises inside the `try` of lines 238-264) while
the standard-input branch raises uncaught at line 277. -/
def runLoop (cand : Candidate) (callBased : Bool) :
    Nat → List PyVal → List PyVal → Except Unit (List RVal × List PyVal)
  | _, [], outs => .ok ([], outs)
  | idx, inp :: rest, outs =>
    match outs[idx]? with
    | none =>
      if callBased then
        (runLoop cand callBased (idx + 1) rest outs).map
          (fun p => (RVal.rInt (-1) :: p.1, p.2))
      else .error ()
    | some outAtIdx =>
      match processCase cand callBased idx inp outAtIdx with
      | .error e => .error e
      | .ok (vOpt, newOut) =>
        match runLoop cand callBased (idx + 1) rest (outs.set idx newOut) with
        | .error e => .error e
        | .ok (rs, outs2) =>
          match vOpt with
          | some v => .ok (v :: rs, outs2)
          | none => .ok (rs, outs2)

/-- Lines 173-455: `run_code_on_test`.  `reliability_guard()` only disables
process-level operations and has no effect on the data flow modelled here.  A
compile/load failure or a missing entry point (lines 190-212) short-circuits
with the single sentinel `-2`; otherwise the per-case loop runs.  The result
pairs the verdict sequence with the final (mutated) stored outputs. -/
def run_code_on_test (io : InOuts) (cand : Candidate) :
    Except Unit (List RVal × List PyVal) :=
  if cand.loadOk then runLoop cand io.fn_name.isSome 0 io.inputs io.outputs
  else .ok ([.rInt (-2)], io.outputs)

/-! ### The standard-input source transform (lines 458-473) -/

/-- Line 472-473: `is_import`. -/
def is_import (line : String) : Bool :=
  pyStartswith line "from " || pyStartswith line "import "

/-- Line 468-469: `find_first_index` raises `StopIteration` when no element
satisfies the predicate; that exception is modelled as `none` and is not
caught anywhere in the source. -/
def find_first_index (lst : List String) (p : String → Bool) : Option Nat :=
  lst.findIdx? p

/-- The fixed preamble inserted by the transform. -/
def wrapHeader : String := "stdin = sys.stdin\nstdout = sys.stdout\ndef code():\n"

/-- The per-line formatting of line 459: import-like lines keep their column,
all other lines gain one tab; each formatted line ends with a newline. -/
def fmtLine (line : String) : String :=
  if is_import line then line ++ "\n" else "\t" ++ (line ++ "\n")

/-- Lines 458-466 of the source.  `none` models the uncaught `StopIteration`
of `find_first_index` when every line is import-like. -/
def convert_test_to_code_prefix (test : String) : Option String :=
  let formatted_lines := (splitOnNLStr test).map fmtLine
  match find_first_index formatted_lines (fun line => pyStartswith line "\t") with
  | none => none
  | some start =>
    some (joinNL (formatted_lines.take start
      ++ [wrapHeader]
      ++ (formatted_lines.drop start).map
          (fun line => if is_import line then "\t" ++ line else line)))

/-! ## Shape lemmas about per-case verdicts -/

/-- A call-based case always yields the sentinel `-1` or a boolean. -/
theorem callCase_val (r : Except Unit PyVal) (exp : PyVal) :
    callCase r exp = .rInt (-1) ∨ ∃ b, callCase r exp = .rBool b := by
  cases r with
  | error e => exact Or.inl rfl
  | ok v => exact Or.inr ⟨_, rfl⟩

/-- A standard-input case that appends a verdict appends `-1` or a boolean. -/
theorem stdCaseRun_val {inp exp : PyVal} {r : StdRun} {v : RVal} {e : PyVal}
    (h : stdCaseRun inp exp r = .ok (some v, e)) :
    v = .rInt (-1) ∨ ∃ b, v = .rBool b := by
  unfold stdCaseRun at h
  repeat' split at h
  all_goals cases h
  all_goals first
    | exact Or.inl rfl
    | exact Or.inr ⟨_, rfl⟩

/-- Any appended per-case verdict is `-1` or a boolean. -/
theorem processCase_val {cand : Candidate} {callBased : Bool} {idx : Nat}
    {inp outAtIdx : PyVal} {v : RVal} {e : PyVal}
    (h : processCase cand callBased idx inp outAtIdx = .ok (some v, e)) :
    v = .rInt (-1) ∨ ∃ b, v = .rBool b := by
  unfold processCase at h
  split at h
  · cases h
    exact callCase_val _ _
  · exact stdCaseRun_val h

/-- Every verdict collected by the loop is `-1` or a boolean. -/
theorem runLoop_mem (cand : Candidate) (callBased : Bool) :
    ∀ (rest : List PyVal) (idx : Nat) (outs : List PyVal)
      (rs : List RVal) (outs2 : List PyVal),
      runLoop cand callBased idx rest outs = .ok (rs, outs2) →
      ∀ r ∈ rs, r = .rInt (-1) ∨ ∃ b, r = .rBool b := by
  intro rest
  induction rest with
  | nil =>
    intro idx outs rs outs2 h r hr
    cases h
    cases hr
  | cons inp rest ih =>
    intro idx outs rs outs2 h r hr
    unfold runLoop at h
    split at h
    · split at h
      · cases hrec : runLoop cand callBased (idx + 1) rest outs with
        | error e =>
          rw [hrec] at h
          cases h
        | ok p =>
          rw [hrec] at h
          obtain ⟨rs2, outs3⟩ := p
          simp only [Except.map] at h
          cases h
          cases hr with
          | head => exact Or.inl rfl
          | tail _ hr => exact ih _ _ _ _ hrec r hr
      · cases h
    · split at h
      · cases h
      · rename_i vOpt newOut hpc
        split at h
        · cases h
        · rename_i rs2 outs3 hrec
          split at h
          · cases h
            cases hr with
            | head => exact processCase_val hpc
            | tail _ hr => exact ih _ _ _ _ hrec r hr
          · cases h
            exact ih _ _ _ _ hrec r hr


/-- `splitStripAssign` on a string value never raises and yields `expSplit`. -/
theorem splitStripAssign_str (g : String) :
    splitStripAssign (.vstr g) = .ok (expSplit g) := rfl

/-- The elementwise token-set rewriting on a list of strings never raises. -/
theorem mapE_setSplit (ss : List String) :
    mapE (fun i =>
      match i with
      | PyVal.vstr s => Except.ok (PyVal.vset ((pySplitWsStr s).map PyVal.vstr))
      | _ => Except.error ()) (ss.map PyVal.vstr) =
    .ok (ss.map (fun s => PyVal.vset ((pySplitWsStr s).map PyVal.vstr))) := by
  induction ss with
  | nil => rfl
  | cons s ss ih => simp [mapE, ih]

/-- `setSplitAssign` after `splitStripAssign` never raises and yields `expSets`. -/
theorem setSplitAssign_expSplit (g : String) :
    setSplitAssign (expSplit g) = .ok (expSets g) := by
  show Except.map PyVal.vlist
      (mapE (fun i =>
        match i with
        | PyVal.vstr s => Except.ok (PyVal.vset ((pySplitWsStr s).map PyVal.vstr))
        | _ => Except.error ()) ((splitStripStr g).map PyVal.vstr)) =
    Except.ok (expSets g)
  rw [mapE_setSplit]
  rfl

/-! ## Claim C4 -/

/-- Claim C4 (confirmed).  If compiling/loading the candidate source raises,
or the entry point name cannot be resolved on the loaded module (or `Solution`
instance), `run_code_on_test` returns the single-element result sequence
`[-2]` and executes zero test cases: the result is the same for every
behaviour `f`/`g` of the candidate oracle, and the stored outputs are returned
untouched. -/
theorem claim4_theorem (io : InOuts) (f : Nat → Except Unit PyVal)
    (g : Nat → StdRun) :
    run_code_on_test io ⟨false, f, g⟩ = .ok ([.rInt (-2)], io.outputs) := rfl

/-! ## Claim C1 -/

/-- Claim C1 (corrected), counterexample.  The compile/load-error sentinel
actually produced by `run_code_on_test` (lines 201 and 211 of the source, and
documented at line 626: "-2 = compile error") is `-2`, not `2`: a candidate
that fails to load yields the result sequence `[-2]`, and `-2 ≠ 2`. -/
theorem claim1_counterexample :
    run_code_on_test ⟨none, [.vstr "1"], [.vstr "1"]⟩
        ⟨false, fun _ => .error (), fun _ => ⟨[], .normal⟩⟩ =
      .ok ([.rInt (-2)], [.vstr "1"]) ∧
    RVal.rInt (-2) ≠ RVal.rInt 2 :=
  ⟨rfl, by decide⟩

/-- Claim C1 (corrected), amended: for every batch run, the produced result
sequence encodes verdicts exactly as `-2` for a compile/load error (including
a missing entry point), `-1` for a runtime error or timeout, `False` for a
candidate that ran but whose output matched no equivalence strategy, and
`True` for a pass; no other sentinel values appear, and `-2` appears exactly
when loading failed, as the whole (singleton) sequence. -/
theorem claim1_theorem (io : InOuts) (cand : Candidate) (rs : List RVal)
    (outs2 : List PyVal) (h : run_code_on_test io cand = .ok (rs, outs2)) :
    (∀ r ∈ rs, r = .rInt (-2) ∨ r = .rInt (-1) ∨ r = .rBool false ∨ r = .rBool true) ∧
    (cand.loadOk = false → rs = [.rInt (-2)]) ∧
    (cand.loadOk = true → RVal.rInt (-2) ∉ rs) := by
  unfold run_code_on_test at h
  split at h
  · rename_i hload
    refine ⟨?_, ?_, ?_⟩
    · intro r hr
      rcases runLoop_mem cand io.fn_name.isSome io.inputs 0 io.outputs rs outs2 h r hr with
        h1 | ⟨b, h1⟩
      · exact Or.inr (Or.inl h1)
      · cases b
        · exact Or.inr (Or.inr (Or.inl h1))
        · exact Or.inr (Or.inr (Or.inr h1))
    · intro hfalse
      rw [hload] at hfalse
      cases hfalse
    · intro _ hmem
      rcases runLoop_mem cand io.fn_name.isSome io.inputs 0 io.outputs rs outs2 h
          (RVal.rInt (-2)) hmem with h1 | ⟨b, h1⟩
      · cases h1
      · cases h1
  · rename_i hload
    cases h
    refine ⟨?_, fun _ => rfl, ?_⟩
    · intro r hr
      cases hr with
      | head => exact Or.inl rfl
      | tail _ h2 => cases h2
    · intro htrue
      rw [htrue] at hload
      cases hload rfl

/-- Witness for the amended C1 theorem at a concrete failing load. -/
theorem claim1_witness :
    RVal.rInt (-2) = .rInt (-2) ∨ RVal.rInt (-2) = .rInt (-1) ∨
    RVal.rInt (-2) = .rBool false ∨ RVal.rInt (-2) = .rBool true :=
  ( claim1_theorem ⟨none, [.vstr "1"], [.vstr "1"]⟩
    ⟨false, fun _ => .error (), fun _ => ⟨[], .normal⟩⟩
    [.rInt (-2)] [.vstr "1"] rfl).1 (RVal.rInt (-2)) (by simp)

/-! ## Claim C2 -/

/-- Claim C2 (corrected), counterexample.  The stored expected outputs are not
immutable up to key coercion: running a single standard-input case whose
output matches no strategy leaves `outputs[0]` rewritten from the text
`"a\nb"` to the list of token sets produced by the cascade, and no dictionary
key coercion is involved (`coerceOutput` leaves the original value unchanged).
This exercises exactly the rewrites at lines 277-278, 332-340 and 400-404. -/
theorem claim2_counterexample :
    run_code_on_test ⟨none, [.vstr "x"], [.vstr "a\nb"]⟩
        ⟨true, fun _ => .error (), fun _ => ⟨["zzz"], .normal⟩⟩ =
      .ok ([.rBool false], [.vlist [.vset [.vstr "a"], .vset [.vstr "b"]]]) ∧
    coerceOutput (.vstr "a\nb") = .vstr "a\nb" ∧
    ([PyVal.vlist [.vset [.vstr "a"], .vset [.vstr "b"]]] : List PyVal) ≠
      [PyVal.vstr "a\nb"] :=
  ⟨rfl, rfl, by simp⟩

/-- The stored expected output leaving a standard-input case is the joined
value, its split-and-strip rewriting, or the token-set rewriting of that. -/
theorem stdCaseRun_chain {inp exp : PyVal} {r : StdRun} {v : Option RVal}
    {e2 : PyVal} (h : stdCaseRun inp exp r = .ok (v, e2)) :
    ∃ e1, joinIfList exp = .ok e1 ∧
      (e2 = e1 ∨
       ∃ eS, splitStripAssign e1 = .ok eS ∧
         (e2 = eS ∨ ∃ eT, setSplitAssign eS = .ok eT ∧ e2 = eT)) := by
  unfold stdCaseRun at h
  repeat' split at h
  all_goals cases h
  all_goals first
    | exact ⟨_, by assumption, Or.inl rfl⟩
    | exact ⟨_, by assumption,
        Or.inr ⟨_, splitStripAssign_str _, Or.inl rfl⟩⟩
    | exact ⟨_, by assumption,
        Or.inr ⟨_, splitStripAssign_str _,
          Or.inr ⟨_, setSplitAssign_expSplit _, rfl⟩⟩⟩

/-- Claim C2 (corrected), amended: during a batch run the stored expected
output of a case is changed only by (a) the one-time key coercion, (b) the
join of a line list into one newline-joined string (lines 277-278), (c) the
split-and-strip rewriting into a list of lines (lines 332-340), and (d) the
conversion of each line into its set of whitespace tokens (lines 400-404) -
and the cascade does apply rewrites (b)-(d) in this order as its later
strategies are reached. -/
theorem claim2_theorem (cand : Candidate) (callBased : Bool) (idx : Nat)
    (inp out : PyVal) (v : Option RVal) (e2 : PyVal)
    (h : processCase cand callBased idx inp out = .ok (v, e2)) :
    e2 = coerceOutput out ∨
    ∃ e1, joinIfList (coerceOutput out) = .ok e1 ∧
      (e2 = e1 ∨
       ∃ eS, splitStripAssign e1 = .ok eS ∧
         (e2 = eS ∨ ∃ eT, setSplitAssign eS = .ok eT ∧ e2 = eT)) := by
  unfold processCase at h
  split at h
  · cases h
    exact Or.inl rfl
  · exact Or.inr (stdCaseRun_chain h)

/-- Witness for the amended C2 theorem at the concrete mutated case. -/
theorem claim2_witness :
    (PyVal.vlist [.vset [.vstr "a"], .vset [.vstr "b"]]) = coerceOutput (.vstr "a\nb") ∨
    ∃ e1, joinIfList (coerceOutput (.vstr "a\nb")) = .ok e1 ∧
      ((PyVal.vlist [.vset [.vstr "a"], .vset [.vstr "b"]]) = e1 ∨
       ∃ eS, splitStripAssign e1 = .ok eS ∧
         ((PyVal.vlist [.vset [.vstr "a"], .vset [.vstr "b"]]) = eS ∨
          ∃ eT, setSplitAssign eS = .ok eT ∧
            (PyVal.vlist [.vset [.vstr "a"], .vset [.vstr "b"]]) = eT)) :=
  claim2_theorem ⟨true, fun _ => .error (), fun _ => ⟨["zzz"], .normal⟩⟩ false 0
    (.vstr "x") (.vstr "a\nb") (some (.rBool false)) _ rfl


/-! ## Claim C9 -/

/-- Claim C9 (confirmed).  In standard-input mode a candidate entry point that
raises `SystemExit` (for example via `sys.exit()`) is treated as a normal
completion rather than a runtime error: `call_method` swallows the exception
(the `except SystemExit: pass` of lines 513-516), so the whole case behaves
exactly as if the entry point had returned normally - no `-1` verdict is
recorded and the output captured up to that point is compared against the
expected output to decide the verdict; concretely, a `sys.exit()` candidate
whose captured output matches still passes. -/
theorem claim9_theorem :
    (∀ inp : PyVal, call_method inp .sysExit = call_method inp .normal) ∧
    (∀ (inp exp : PyVal) (out : List String),
      stdCaseRun inp exp ⟨out, .sysExit⟩ = stdCaseRun inp exp ⟨out, .normal⟩) ∧
    stdCaseRun (.vstr "3") (.vstr "9") ⟨["9"], .sysExit⟩ =
      .ok (some (.rBool true), .vstr "9") := by
  have hcm : ∀ inp : PyVal, call_method inp .sysExit = call_method inp .normal := by
    intro inp
    unfold call_method
    cases hj : joinIfList inp with
    | error e => rfl
    | ok v => cases v <;> rfl
  refine ⟨hcm, ?_, rfl⟩
  intro inp exp out
  unfold stdCaseRun
  simp only [hcm]

/-! ## Claim C10 -/

/-- Claim C10 (confirmed).  The order-invariant comparison strategies reduce
each line of the candidate output and of the expected output to a set of
whitespace-separated tokens (`outSets` and `expSets`) and compare sets of
frozensets (`check5`); consequently a candidate output that differs from the
expected output only in the multiplicity of repeated tokens within a line
("1 2" against "1 1 2") and of repeated identical lines ("3" appearing twice
against once) receives the verdict `True`, even though the exact and
line-based comparisons all fail. -/
theorem claim10_theorem :
    run_code_on_test ⟨none, [.vstr "x"], [.vstr "1 1 2\n3"]⟩
        ⟨true, fun _ => .error (), fun _ => ⟨["1 2", "3", "3"], .normal⟩⟩ =
      .ok ([.rBool true],
           [.vlist [.vset [.vstr "1", .vstr "1", .vstr "2"], .vset [.vstr "3"]]]) ∧
    check5 (outSets ["1 2", "3", "3"]) (expSets "1 1 2\n3") = true ∧
    ["1 2", "3", "3"] ≠ splitStripStr "1 1 2\n3" ∧
    joinNL ["1 2", "3", "3"] ≠ "1 1 2\n3" :=
  ⟨rfl, rfl, by decide, by decide⟩


/-! ## Claim C6 -/

/-- The function-call equivalence condition exactly as claim C6 words it: the
returned value (tuples normalized to lists) equals the expected output, or
equals `expected[0]` when the expected output is a non-empty list, or, when
the result is a list of tuple elements, their element-wise list conversion
equals `expected[0]`. -/
def callCheckClaimed (v exp : PyVal) : Bool :=
  pyEq (tupleNorm v) exp ||
  (match exp with
   | .vlist (e0 :: _) => pyEq (tupleNorm v) e0
   | _ => false) ||
  (match tupleNorm v with
   | .vlist xs =>
     xs.all (fun x => match x with | .vtuple _ => true | _ => false) &&
     (match mapO pyListOf xs, pyIndex0 exp with
      | some conv, some e0 => pyEq (.vlist conv) e0
      | _, _ => false)
   | _ => false)

/-- The amended condition: the third disjunct only requires the FIRST element
of the result list to be a tuple (with every element convertible to a list),
exactly as the `isinstance(output[0], tuple)` guard of line 251 does. -/
def callCheckAmended (v exp : PyVal) : Bool :=
  pyEq (tupleNorm v) exp ||
  (match exp with
   | .vlist (e0 :: _) => pyEq (tupleNorm v) e0
   | _ => false) ||
  (match tupleNorm v with
   | .vlist (x0 :: rest) =>
     (match x0 with | .vtuple _ => true | _ => false) &&
     (match mapO pyListOf (x0 :: rest), pyIndex0 exp with
      | some conv, some e0 => pyEq (.vlist conv) e0
      | _, _ => false)
   | _ => false)

/-- Claim C6 (corrected), counterexample.  For the returned value
`[(1,), [2]]` - first element a tuple, second a list - and expected output
`[[[1], [2]]]`, the code verdict is `True` (line 251 only checks `output[0]`
and `list(x)` converts the list element as well), while the claimed condition
is `False`: the value is not a list of tuple elements, equals neither the
expected output nor `expected[0]`. -/
theorem claim6_counterexample :
    callCase (.ok (.vlist [.vtuple [.vint 1], .vlist [.vint 2]]))
        (.vlist [.vlist [.vlist [.vint 1], .vlist [.vint 2]]]) = .rBool true ∧
    callCheckClaimed (.vlist [.vtuple [.vint 1], .vlist [.vint 2]])
        (.vlist [.vlist [.vlist [.vint 1], .vlist [.vint 2]]]) = false :=
  ⟨rfl, rfl⟩

/-- The third comparison attempt written as in the amended claim agrees with
the transcription `tupleListCompare`. -/
theorem third_eq (out exp : PyVal) :
    (match out with
     | PyVal.vlist (x0 :: rest) =>
       (match x0 with | PyVal.vtuple _ => true | _ => false) &&
       (match mapO pyListOf (x0 :: rest), pyIndex0 exp with
        | some conv, some e0 => pyEq (.vlist conv) e0
        | _, _ => false)
     | _ => false) = tupleListCompare out exp := by
  unfold tupleListCompare
  cases out with
  | vlist xs =>
    cases xs with
    | nil => rfl
    | cons x0 rest => cases x0 <;> simp
  | vint n => rfl
  | vfloat q => rfl
  | vstr s => rfl
  | vtuple xs => rfl
  | vset xs => rfl
  | vdict d => rfl

/-- Claim C6 (corrected), amended: in function-call mode, for every test case
on which the invocation returns normally, the verdict is `True` iff the
returned value (tuples normalized to lists) equals the expected output, or
equals `expected[0]` when the expected output is a non-empty list, or, when
the result is a list whose FIRST element is a tuple and every element is
list-convertible, their element-wise list conversion equals `expected[0]`; in
every other case the verdict is `False`. -/
theorem claim6_theorem (v exp : PyVal) :
    callCase (.ok v) exp = .rBool (callCheckAmended v exp) := by
  unfold callCase callCheckAmended
  rw [third_eq (tupleNorm v) exp]
  cases exp with
  | vlist es =>
    cases es with
    | nil => simp
    | cons e0 rest => simp [Bool.or_assoc]
  | vint n => simp
  | vfloat q => simp
  | vstr s => simp
  | vtuple xs => simp
  | vset xs => simp
  | vdict d => simp

/-! ## Wellformedness of fixtures (the data model of the spec) -/

/-- A standard-input fixture input the harness can process without an uncaught
exception: any value except a line list with a non-string element (the join at
line 275 would raise) and except a tuple headed by a dict (the coercion at
lines 216-220 could rebuild it into a non-joinable list). -/
def stdInWf : PyVal → Bool
  | .vlist xs => xs.all isStr
  | .vtuple (.vdict _ :: _) => false
  | _ => true

/-- A standard-input expected output the harness can process without an
uncaught exception: after key coercion it is text or a list of text lines,
exactly the `ExpectedOutput` shape of the data model. -/
def stdOutWf (out : PyVal) : Bool :=
  match coerceOutput out with
  | .vstr _ => true
  | .vlist xs => xs.all isStr
  | _ => false

/-- A fixture respecting the data model: equal input/output counts and, in
standard-input mode, wellformed inputs and outputs. -/
def fixtureWf (io : InOuts) : Bool :=
  (io.inputs.length == io.outputs.length) &&
  (io.fn_name.isSome || (io.inputs.all stdInWf && io.outputs.all stdOutWf))

/-- A list of string values sequences to its strings. -/
theorem allStrings_of_all {xs : List PyVal} (h : xs.all isStr = true) :
    ∃ ss, allStrings xs = some ss := by
  induction xs with
  | nil => exact ⟨[], rfl⟩
  | cons x rest ih =>
    rw [List.all_cons, Bool.and_eq_true] at h
    obtain ⟨ss, hss⟩ := ih h.2
    have hx := h.1
    cases x with
    | vstr s =>
      refine ⟨s :: ss, ?_⟩
      simp only [allStrings, mapO, asStr]
      simp only [allStrings] at hss
      rw [hss]
    | vint n => simp [isStr] at hx
    | vfloat q => simp [isStr] at hx
    | vlist l => simp [isStr] at hx
    | vtuple l => simp [isStr] at hx
    | vset l => simp [isStr] at hx
    | vdict d => simp [isStr] at hx

/-- A wellformed standard-input input survives coercion and joining. -/
theorem stdIn_join {inp : PyVal} (h : stdInWf inp = true) :
    ∃ v1, joinIfList (coerceInputs inp) = .ok v1 := by
  cases inp with
  | vlist xs =>
    obtain ⟨ss, hss⟩ := allStrings_of_all (by simpa [stdInWf] using h)
    cases xs with
    | nil => exact ⟨.vstr "", rfl⟩
    | cons x rest =>
      have hx : isStr x = true := by
        rw [stdInWf, List.all_cons, Bool.and_eq_true] at h
        exact h.1
      cases x <;> simp [isStr] at hx
      refine ⟨.vstr (joinNL ss), ?_⟩
      simp [coerceInputs, pyIndex0, joinIfList, hss]
  | vtuple xs =>
    cases xs with
    | nil => exact ⟨.vtuple [], rfl⟩
    | cons x rest =>
      cases x <;> first
        | exact ⟨_, rfl⟩
        | simp [stdInWf] at h
  | vint n => exact ⟨_, rfl⟩
  | vfloat q => exact ⟨_, rfl⟩
  | vstr s =>
    obtain ⟨cs⟩ := s
    refine ⟨.vstr ⟨cs⟩, ?_⟩
    have hc : coerceInputs (.vstr ⟨cs⟩) = .vstr ⟨cs⟩ := by
      cases cs <;> rfl
    rw [hc]
    rfl
  | vset xs => exact ⟨_, rfl⟩
  | vdict d => exact ⟨_, rfl⟩

/-- A wellformed expected output joins to a string. -/
theorem stdOut_join {out : PyVal} (h : stdOutWf out = true) :
    ∃ g, joinIfList (coerceOutput out) = .ok (.vstr g) := by
  unfold stdOutWf at h
  cases hco : coerceOutput out with
  | vstr g => exact ⟨g, rfl⟩
  | vlist xs =>
    rw [hco] at h
    have h2 : xs.all isStr = true := h
    obtain ⟨ss, hss⟩ := allStrings_of_all h2
    exact ⟨joinNL ss, by simp [joinIfList, hss]⟩
  | vint n => rw [hco] at h; exact absurd (h : false = true) (by simp)
  | vfloat q => rw [hco] at h; exact absurd (h : false = true) (by simp)
  | vtuple xs => rw [hco] at h; exact absurd (h : false = true) (by simp)
  | vset xs => rw [hco] at h; exact absurd (h : false = true) (by simp)
  | vdict d => rw [hco] at h; exact absurd (h : false = true) (by simp)

/-- Under wellformedness, a standard-input case always appends a verdict. -/
theorem stdCaseRun_ok {inp out : PyVal} (r : StdRun)
    (h1 : stdInWf inp = true) (h2 : stdOutWf out = true) :
    ∃ v e, stdCaseRun (coerceInputs inp) (coerceOutput out) r = .ok (some v, e) := by
  obtain ⟨v1, hj1⟩ := stdIn_join h1
  obtain ⟨g, hj2⟩ := stdOut_join h2
  simp only [stdCaseRun, hj1, hj2]
  cases hcm : call_method v1 r.term with
  | error e => exact ⟨_, _, rfl⟩
  | ok u =>
    repeat' split
    all_goals exact ⟨_, _, rfl⟩

/-- Under wellformedness (trivial in call-based mode), every case appends a
verdict. -/
theorem processCase_ok (cand : Candidate) (callBased : Bool) (idx : Nat)
    (inp out : PyVal)
    (hwf : callBased = false → stdInWf inp = true ∧ stdOutWf out = true) :
    ∃ v e, processCase cand callBased idx inp out = .ok (some v, e) := by
  cases callBased with
  | true => exact ⟨callCase (cand.callRun idx) (coerceOutput out), coerceOutput out, rfl⟩
  | false =>
    obtain ⟨h1, h2⟩ := hwf rfl
    exact stdCaseRun_ok (cand.stdRun idx) h1 h2

/-- The loop invariant: when every pending case appends a verdict, the loop
returns exactly one verdict per case, in case order, each verdict being the
one its own case computes from the fixture entries at its own index. -/
theorem runLoop_spec (cand : Candidate) (mode : Bool) :
    ∀ (rest : List PyVal) (idx : Nat) (outs : List PyVal),
      idx + rest.length ≤ outs.length →
      (∀ j, j < rest.length →
        ∃ v e, processCase cand mode (idx + j) (rest.getD j (.vint 0))
          (outs.getD (idx + j) (.vint 0)) = .ok (some v, e)) →
      ∃ rs outs2, runLoop cand mode idx rest outs = .ok (rs, outs2) ∧
        rs.length = rest.length ∧
        ∀ j, j < rest.length →
          ∃ v e, processCase cand mode (idx + j) (rest.getD j (.vint 0))
            (outs.getD (idx + j) (.vint 0)) = .ok (some v, e) ∧
            rs[j]? = some v := by
  intro rest
  induction rest with
  | nil =>
    intro idx outs _ _
    exact ⟨[], outs, rfl, rfl, fun j hj => absurd hj (by simp)⟩
  | cons inp rest ih =>
    intro idx outs hlen H
    have hidx : idx < outs.length := by
      simp only [List.length_cons] at hlen
      omega
    have ho : outs[idx]? = some (outs.getD idx (.vint 0)) := by
      rw [List.getD_eq_getElem _ _ hidx, List.getElem?_eq_getElem]
    obtain ⟨v0, e0, hpc⟩ := H 0 (by simp)
    rw [Nat.add_zero] at hpc
    have hpc0 : processCase cand mode idx inp (outs.getD idx (.vint 0)) =
        .ok (some v0, e0) := hpc
    have hlen' : (idx + 1) + rest.length ≤ (outs.set idx e0).length := by
      rw [List.length_set]
      simp only [List.length_cons] at hlen
      omega
    have hgetD : ∀ j, (outs.set idx e0).getD (idx + 1 + j) (.vint 0) =
        outs.getD (idx + 1 + j) (.vint 0) := by
      intro j
      rw [List.getD_eq_getElem?_getD, List.getD_eq_getElem?_getD,
        List.getElem?_set_ne (by omega)]
    have H' : ∀ j, j < rest.length →
        ∃ v e, processCase cand mode (idx + 1 + j) (rest.getD j (.vint 0))
          ((outs.set idx e0).getD (idx + 1 + j) (.vint 0)) = .ok (some v, e) := by
      intro j hj
      rw [hgetD j]
      have := H (j + 1) (by simpa using Nat.succ_lt_succ hj)
      rwa [show idx + (j + 1) = idx + 1 + j by omega] at this
    obtain ⟨rs', outs2, hrun, hlenrs, hspec⟩ := ih (idx + 1) (outs.set idx e0) hlen' H'
    refine ⟨v0 :: rs', outs2, ?_, by simpa using hlenrs, ?_⟩
    · unfold runLoop
      rw [ho]
      simp only [hpc0, hrun]
    · intro j hj
      cases j with
      | zero => exact ⟨v0, e0, hpc0, by simp⟩
      | succ j =>
        have hj' : j < rest.length := by simpa using Nat.lt_of_succ_lt_succ hj
        obtain ⟨v, e, hvc, hidxv⟩ := hspec j hj'
        rw [hgetD j] at hvc
        refine ⟨v, e, ?_, ?_⟩
        · rwa [show idx + (j + 1) = idx + 1 + j by omega]
        · simpa using hidxv

/-- A standard-input invocation that raises always surfaces as an exception of
`call_method`, whatever the transcript is. -/
theorem call_method_exn (v : PyVal) : call_method v .exn = .error () := by
  unfold call_method
  cases hj : joinIfList v with
  | error e => rfl
  | ok u => cases u <;> rfl

/-- A case whose invocation raises appends exactly the sentinel `-1`. -/
theorem processCase_raises (cand : Candidate) (mode : Bool) (idx : Nat)
    (inp out : PyVal)
    (hwf : mode = false → stdInWf inp = true ∧ stdOutWf out = true)
    (hexn : (mode = true → cand.callRun idx = .error ()) ∧
            (mode = false → (cand.stdRun idx).term = .exn)) :
    ∃ e, processCase cand mode idx inp out = .ok (some (.rInt (-1)), e) := by
  cases mode with
  | true =>
    have hc := hexn.1 rfl
    refine ⟨coerceOutput out, ?_⟩
    unfold processCase
    rw [if_pos rfl, hc]
    rfl
  | false =>
    obtain ⟨h1, h2⟩ := hwf rfl
    obtain ⟨v1, hj1⟩ := stdIn_join h1
    obtain ⟨g, hj2⟩ := stdOut_join h2
    have hterm := hexn.2 rfl
    refine ⟨.vstr g, ?_⟩
    have hstep : processCase cand false idx inp out =
        stdCaseRun (coerceInputs inp) (coerceOutput out) (cand.stdRun idx) := rfl
    rw [hstep]
    simp only [stdCaseRun, hj1, hj2, hterm, call_method_exn]

/-! ## Claim C3 -/

/-- Claim C3 (confirmed).  For every candidate that loads successfully and
every fixture with `n` test cases (a fixture respecting the data model:
`len(inputs) == len(outputs)`, and text or line-list values in standard-input
mode), `run_code_on_test` appends exactly one verdict per test case, in
test-case order, so the returned result sequence has length `n`, and the
verdict at position `j` is the one computed from case `j` alone.  Exceptions
raised while evaluating a comparison strategy are swallowed into a non-match
by construction (`floatCheck`, `check5`, `check6` map a failed parse to
`false`), and the verdict-omitting `continue` of line 410 is unreachable, so
no case loses its verdict. -/
theorem claim3_theorem (io : InOuts) (cand : Candidate)
    (hwf : fixtureWf io = true) (hload : cand.loadOk = true) :
    ∃ rs outs2, run_code_on_test io cand = .ok (rs, outs2) ∧
      rs.length = io.inputs.length ∧
      ∀ j, j < io.inputs.length →
        ∃ v e, processCase cand io.fn_name.isSome j (io.inputs.getD j (.vint 0))
          (io.outputs.getD j (.vint 0)) = .ok (some v, e) ∧ rs[j]? = some v := by
  have hrun : run_code_on_test io cand =
      runLoop cand io.fn_name.isSome 0 io.inputs io.outputs := by
    unfold run_code_on_test
    rw [hload]
    rfl
  unfold fixtureWf at hwf
  rw [Bool.and_eq_true, beq_iff_eq, Bool.or_eq_true, Bool.and_eq_true] at hwf
  obtain ⟨hlen, hmode⟩ := hwf
  have H : ∀ j, j < io.inputs.length →
      ∃ v e, processCase cand io.fn_name.isSome (0 + j) (io.inputs.getD j (.vint 0))
        (io.outputs.getD (0 + j) (.vint 0)) = .ok (some v, e) := by
    intro j hj
    rw [Nat.zero_add]
    apply processCase_ok
    intro hfalse
    rcases hmode with hm | ⟨hin, hout⟩
    · rw [hfalse] at hm
      cases hm
    · constructor
      · have hj2 : io.inputs.getD j (.vint 0) ∈ io.inputs := by
          rw [List.getD_eq_getElem _ _ hj]
          exact List.getElem_mem _
        exact List.all_eq_true.mp hin _ hj2
      · have hj3 : j < io.outputs.length := by omega
        have hj4 : io.outputs.getD j (.vint 0) ∈ io.outputs := by
          rw [List.getD_eq_getElem _ _ hj3]
          exact List.getElem_mem _
        exact List.all_eq_true.mp hout _ hj4
  obtain ⟨rs, outs2, h1, h2, h3⟩ :=
    runLoop_spec cand io.fn_name.isSome io.inputs 0 io.outputs (by omega) H
  refine ⟨rs, outs2, by rw [hrun]; exact h1, h2, ?_⟩
  intro j hj
  have := h3 j hj
  rwa [Nat.zero_add] at this

/-- Witness for C3: a one-case standard-input fixture with a passing
candidate. -/
theorem claim3_witness :
    fixtureWf ⟨none, [.vstr "3"], [.vstr "9"]⟩ = true ∧
    ∃ rs outs2,
      run_code_on_test ⟨none, [.vstr "3"], [.vstr "9"]⟩
          ⟨true, fun _ => .error (), fun _ => ⟨["9"], .normal⟩⟩ = .ok (rs, outs2) ∧
      rs.length = 1 ∧
      ∀ j, j < 1 →
        ∃ v e, processCase ⟨true, fun _ => .error (), fun _ => ⟨["9"], .normal⟩⟩
          false j ([PyVal.vstr "3"].getD j (.vint 0))
          ([PyVal.vstr "9"].getD j (.vint 0)) = .ok (some v, e) ∧ rs[j]? = some v :=
  ⟨rfl, claim3_theorem ⟨none, [.vstr "3"], [.vstr "9"]⟩
    ⟨true, fun _ => .error (), fun _ => ⟨["9"], .normal⟩⟩ rfl rfl⟩

/-! ## Claim C5 -/

/-- Claim C5 (confirmed).  If the candidate invocation on test case `i` raises
any exception - in call-based mode the oracle raises, in standard-input mode
the termination kind is an exception, which includes the `TimeoutException`
raised by the deadline handler on expiry - then the verdict for case `i` is
the runtime-error sentinel `-1`, and every test case in the batch (so in
particular every subsequent one) is still executed and receives its own
verdict, computed from its own fixture entries and its own oracle behaviour
alone. -/
theorem claim5_theorem (io : InOuts) (cand : Candidate) (i : Nat)
    (hwf : fixtureWf io = true) (hload : cand.loadOk = true)
    (hi : i < io.inputs.length)
    (hexn : (io.fn_name.isSome = true → cand.callRun i = .error ()) ∧
            (io.fn_name.isSome = false → (cand.stdRun i).term = .exn)) :
    ∃ rs outs2, run_code_on_test io cand = .ok (rs, outs2) ∧
      rs.length = io.inputs.length ∧
      rs[i]? = some (.rInt (-1)) ∧
      ∀ j, j < io.inputs.length →
        ∃ v e, processCase cand io.fn_name.isSome j (io.inputs.getD j (.vint 0))
          (io.outputs.getD j (.vint 0)) = .ok (some v, e) ∧ rs[j]? = some v := by
  have hrun : run_code_on_test io cand =
      runLoop cand io.fn_name.isSome 0 io.inputs io.outputs := by
    unfold run_code_on_test
    rw [hload]
    rfl
  unfold fixtureWf at hwf
  rw [Bool.and_eq_true, beq_iff_eq, Bool.or_eq_true, Bool.and_eq_true] at hwf
  obtain ⟨hlen, hmode⟩ := hwf
  have hwfj : ∀ j, j < io.inputs.length → io.fn_name.isSome = false →
      stdInWf (io.inputs.getD j (.vint 0)) = true ∧
      stdOutWf (io.outputs.getD j (.vint 0)) = true := by
    intro j hj hfalse
    rcases hmode with hm | ⟨hin, hout⟩
    · rw [hfalse] at hm
      cases hm
    · constructor
      · have hj2 : io.inputs.getD j (.vint 0) ∈ io.inputs := by
          rw [List.getD_eq_getElem _ _ hj]
          exact List.getElem_mem _
        exact List.all_eq_true.mp hin _ hj2
      · have hj3 : j < io.outputs.length := by omega
        have hj4 : io.outputs.getD j (.vint 0) ∈ io.outputs := by
          rw [List.getD_eq_getElem _ _ hj3]
          exact List.getElem_mem _
        exact List.all_eq_true.mp hout _ hj4
  have H : ∀ j, j < io.inputs.length →
      ∃ v e, processCase cand io.fn_name.isSome (0 + j) (io.inputs.getD j (.vint 0))
        (io.outputs.getD (0 + j) (.vint 0)) = .ok (some v, e) := by
    intro j hj
    rw [Nat.zero_add]
    exact processCase_ok cand io.fn_name.isSome j _ _ (hwfj j hj)
  obtain ⟨rs, outs2, h1, h2, h3⟩ :=
    runLoop_spec cand io.fn_name.isSome io.inputs 0 io.outputs (by omega) H
  have h3' : ∀ j, j < io.inputs.length →
      ∃ v e, processCase cand io.fn_name.isSome j (io.inputs.getD j (.vint 0))
        (io.outputs.getD j (.vint 0)) = .ok (some v, e) ∧ rs[j]? = some v := by
    intro j hj
    have := h3 j hj
    rwa [Nat.zero_add] at this
  refine ⟨rs, outs2, by rw [hrun]; exact h1, h2, ?_, h3'⟩
  obtain ⟨v, e, hvc, hidxv⟩ := h3' i hi
  obtain ⟨e2, hraise⟩ := processCase_raises cand io.fn_name.isSome i
    (io.inputs.getD i (.vint 0)) (io.outputs.getD i (.vint 0)) (hwfj i hi) hexn
  rw [hvc] at hraise
  injection hraise with hraise
  injection hraise with hv he
  injection hv with hv
  rw [← hv]
  exact hidxv

/-- Witness for C5: a two-case standard-input fixture whose first case times
out (raises) while the second passes. -/
theorem claim5_witness :
    fixtureWf ⟨none, [.vstr "a", .vstr "b"], [.vstr "1", .vstr "2"]⟩ = true ∧
    ∃ rs outs2,
      run_code_on_test ⟨none, [.vstr "a", .vstr "b"], [.vstr "1", .vstr "2"]⟩
          ⟨true, fun _ => .error (),
           fun j => if j = 0 then ⟨[], .exn⟩ else ⟨["2"], .normal⟩⟩ =
        .ok (rs, outs2) ∧
      rs.length = 2 ∧
      rs[0]? = some (.rInt (-1)) ∧
      ∀ j, j < 2 →
        ∃ v e, processCase
          ⟨true, fun _ => .error (),
           fun j => if j = 0 then ⟨[], .exn⟩ else ⟨["2"], .normal⟩⟩
          false j ([PyVal.vstr "a", PyVal.vstr "b"].getD j (.vint 0))
          ([PyVal.vstr "1", PyVal.vstr "2"].getD j (.vint 0)) = .ok (some v, e) ∧
          rs[j]? = some v :=
  ⟨rfl, claim5_theorem ⟨none, [.vstr "a", .vstr "b"], [.vstr "1", .vstr "2"]⟩
    ⟨true, fun _ => .error (),
     fun j => if j = 0 then ⟨[], .exn⟩ else ⟨["2"], .normal⟩⟩ 0
    rfl rfl (by simp) (And.intro (fun h => nomatch h) (fun _ => rfl))⟩

/-! ## Claim C8 -/

/-- Appending concatenates the character lists. -/
theorem strData (s t : String) : (s ++ t).data = s.data ++ t.data := by
  obtain ⟨a⟩ := s
  obtain ⟨b⟩ := t
  rfl

/-- An empty pattern is a prefix of everything. -/
theorem chPrefix_nil (a : List Char) : chPrefix [] a = true := by
  cases a <;> rfl

/-- A prefix of `a` is a prefix of `a ++ b`. -/
theorem chPrefix_append {p a : List Char} (b : List Char)
    (h : chPrefix p a = true) : chPrefix p (a ++ b) = true := by
  induction p generalizing a with
  | nil => exact chPrefix_nil _
  | cons x xs ih =>
    cases a with
    | nil => exact nomatch h
    | cons c t =>
      rw [List.cons_append]
      unfold chPrefix at h ⊢
      rw [Bool.and_eq_true] at h ⊢
      exact ⟨h.1, ih h.2⟩

/-- A nonempty prefix pins down the head character. -/
theorem chPrefix_head {c : Char} {rest a : List Char}
    (h : chPrefix (c :: rest) a = true) : ∃ t, a = c :: t := by
  cases a with
  | nil => exact nomatch h
  | cons b t =>
    unfold chPrefix at h
    rw [Bool.and_eq_true] at h
    exact ⟨t, by rw [eq_of_beq h.1]⟩

/-- An import-like line starts with a character that is not a tab. -/
theorem is_import_head {l : String} (h : is_import l = true) :
    ∃ c t, l.data = c :: t ∧ ('\t' == c) = false := by
  unfold is_import pyStartswith at h
  rw [Bool.or_eq_true] at h
  rcases h with hf | hi
  · obtain ⟨t, hd⟩ := @chPrefix_head 'f' ['r', 'o', 'm', ' '] _ hf
    exact ⟨'f', t, hd, by decide⟩
  · obtain ⟨t, hd⟩ := @chPrefix_head 'i' ['m', 'p', 'o', 'r', 't', ' '] _ hi
    exact ⟨'i', t, hd, by decide⟩

/-- A formatted import-like line does not start with a tab. -/
theorem fmt_imp_no_tab {l : String} (h : is_import l = true) :
    pyStartswith (fmtLine l) "\t" = false := by
  unfold fmtLine
  rw [if_pos h]
  obtain ⟨c, t, hd, hc⟩ := is_import_head h
  unfold pyStartswith
  rw [strData, hd]
  show chPrefix ['\t'] (c :: (t ++ "\n".data)) = false
  unfold chPrefix
  rw [hc]
  rfl

/-- A formatted non-import line starts with a tab. -/
theorem fmt_nonimp_tab {l : String} (h : is_import l = false) :
    pyStartswith (fmtLine l) "\t" = true := by
  unfold fmtLine
  rw [if_neg (by rw [h]; exact fun hh => nomatch hh)]
  unfold pyStartswith
  rw [strData]
  have ht : ("\t" : String).data = ['\t'] := rfl
  rw [ht, List.singleton_append]
  unfold chPrefix
  simp [chPrefix_nil]

/-- A line starting with a tab is not import-like. -/
theorem tab_not_import (x : String) : is_import ("\t" ++ x) = false := by
  unfold is_import pyStartswith
  rw [strData]
  rfl

/-- An import-like line stays import-like with a newline appended. -/
theorem is_import_append_nl {l : String} (h : is_import l = true) :
    is_import (l ++ "\n") = true := by
  unfold is_import pyStartswith at h ⊢
  rw [strData]
  rw [Bool.or_eq_true] at h ⊢
  rcases h with hf | hi
  · exact Or.inl (chPrefix_append _ hf)
  · exact Or.inr (chPrefix_append _ hi)

/-- Re-tabbing a formatted line always yields the original line nested one
indentation level deeper (and newline-terminated). -/
theorem tabFix_fmt (l : String) :
    (if is_import (fmtLine l) then "\t" ++ fmtLine l else fmtLine l) =
    "\t" ++ (l ++ "\n") := by
  cases himp : is_import l with
  | true =>
    have h1 : fmtLine l = l ++ "\n" := by unfold fmtLine; rw [if_pos himp]
    rw [h1, if_pos (is_import_append_nl himp)]
  | false =>
    have h1 : fmtLine l = "\t" ++ (l ++ "\n") := by
      unfold fmtLine
      rw [if_neg (by rw [himp]; exact fun hh => nomatch hh)]
    rw [h1, if_neg (by rw [tab_not_import]; exact fun hh => nomatch hh)]

/-- The structural content of the source transform on any line list with at
least one non-import line: the search index is the length of the run of
leading import-like lines, the hoisted block is exactly that run, and every
remaining line gains exactly one leading tab. -/
theorem convert_lists (lines : List String)
    (h : lines.dropWhile is_import ≠ []) :
    ∃ start,
      (lines.map fmtLine).findIdx? (fun line => pyStartswith line "\t") = some start ∧
      (lines.map fmtLine).take start =
        (lines.takeWhile is_import).map (fun l => l ++ "\n") ∧
      ((lines.map fmtLine).drop start).map
          (fun line => if is_import line then "\t" ++ line else line) =
        (lines.dropWhile is_import).map (fun l => "\t" ++ (l ++ "\n")) := by
  induction lines with
  | nil => exact absurd rfl h
  | cons l ls ih =>
    cases himp : is_import l with
    | true =>
      have hdrop : (l :: ls).dropWhile is_import = ls.dropWhile is_import := by
        rw [List.dropWhile_cons_of_pos himp]
      obtain ⟨k, h1, h2, h3⟩ := ih (by rw [hdrop] at h; exact h)
      refine ⟨k + 1, ?_, ?_, ?_⟩
      · rw [List.map_cons, List.findIdx?_cons, if_neg (by rw [fmt_imp_no_tab himp]; exact fun hh => nomatch hh),
          List.findIdx?_succ, h1]
        rfl
      · rw [List.map_cons, List.take_succ_cons, List.takeWhile_cons_of_pos himp,
          List.map_cons, h2]
        unfold fmtLine
        rw [if_pos himp]
      · rw [List.map_cons, List.drop_succ_cons, h3, hdrop]
    | false =>
      refine ⟨0, ?_, ?_, ?_⟩
      · rw [List.map_cons, List.findIdx?_cons, if_pos (fmt_nonimp_tab himp)]
      · rw [List.take_zero, List.takeWhile_cons_of_neg (by rw [himp]; exact fun hh => nomatch hh)]
        rfl
      · rw [List.drop_zero, List.dropWhile_cons_of_neg (by rw [himp]; exact fun hh => nomatch hh),
          List.map_map]
        exact List.map_congr_left (fun a _ => tabFix_fmt a)

/-- Claim C8 (corrected), counterexample.  A candidate source consisting only
of import-like lines makes `find_first_index` raise `StopIteration` (no
formatted line starts with a tab), so the transform produces no wrapped
program at all - contradicting the claim that for every source text the
transform produces the hoisted-imports/nested-body form. -/
theorem claim8_counterexample :
    convert_test_to_code_prefix "import os" = none := by decide

/-- Claim C8 (corrected), amended: for every candidate source text with at
least one non-import line, the transform hoists exactly the import-like lines
that precede the first non-import line above the new enclosing routine
(`wrapHeader` defines the entry point `code`), and nests every remaining line
- including import-like lines appearing after the first non-import line -
exactly one indentation level (one tab) inside it. -/
theorem claim8_theorem (test : String)
    (h : (splitOnNLStr test).dropWhile is_import ≠ []) :
    convert_test_to_code_prefix test =
      some (joinNL
        (((splitOnNLStr test).takeWhile is_import).map (fun l => l ++ "\n")
          ++ [wrapHeader]
          ++ ((splitOnNLStr test).dropWhile is_import).map
              (fun l => "\t" ++ (l ++ "\n")))) := by
  obtain ⟨start, h1, h2, h3⟩ := convert_lists (splitOnNLStr test) h
  simp only [ convert_test_to_code_prefix, find_first_index, h1]
  rw [h2, h3]

/-- Witness for C8 at a source with imports before and after the body. -/
theorem claim8_witness :
    convert_test_to_code_prefix "import os\nx = input()\nimport sys\nprint(x)" =
      some (joinNL
        ((["import os"].map (fun l => l ++ "\n"))
          ++ [wrapHeader]
          ++ (["x = input()", "import sys", "print(x)"].map
              (fun l => "\t" ++ (l ++ "\n"))))) :=
  claim8_theorem "import os\nx = input()\nimport sys\nprint(x)" (by decide)

/-! ## Claim C7 -/

/-- One-step evaluation of `pyEqF` on strings. -/
theorem pyEqF_str (n : Nat) (s t : String) :
    pyEqF (n + 1) (.vstr s) (.vstr t) = (s == t) := rfl

/-- One-step evaluation of `pyEqF` on floats. -/
theorem pyEqF_float (n : Nat) (p q : PyFloat) :
    pyEqF (n + 1) (.vfloat p) (.vfloat q) = PyFloat.feq p q := rfl

/-- One-step evaluation of `pyEqF` on singleton lists. -/
theorem pyEqF_vlist1 (n : Nat) (x y : PyVal) :
    pyEqF (n + 1) (.vlist [x]) (.vlist [y]) = pyEqF n x y := by
  show ((1 == 1) && (pyEqF n x y && true)) = pyEqF n x y
  rw [Bool.and_true]
  rfl

/-- One-step evaluation of `pyEqF` on singleton sets (both inclusion passes
evaluate the same comparison). -/
theorem pyEqF_vset1 (n : Nat) (x y : PyVal) :
    pyEqF (n + 1) (.vset [x]) (.vset [y]) = pyEqF n x y := by
  show (((pyEqF n x y || false) && true) && ((pyEqF n x y || false) && true)) =
    pyEqF n x y
  rw [Bool.or_false, Bool.and_true, Bool.and_self]

/-- Kind mismatches evaluate to `false`. -/
theorem pyEqF_str_list (n : Nat) (s : String) (x : List PyVal) :
    pyEqF (n + 1) (.vstr s) (.vlist x) = false := rfl

/-- Kind mismatches evaluate to `false`. -/
theorem pyEqF_str_set (n : Nat) (s : String) (x : List PyVal) :
    pyEqF (n + 1) (.vstr s) (.vset x) = false := rfl

/-- Python equality of two singleton string lists is string equality. -/
theorem pyEq_list1_str (s t : String) :
    pyEq (.vlist [.vstr s]) (.vlist [.vstr t]) = (s == t) := by
  show pyEqF (999 + 1) (.vlist [.vstr s]) (.vlist [.vstr t]) = (s == t)
  rw [pyEqF_vlist1]
  show pyEqF (998 + 1) (.vstr s) (.vstr t) = (s == t)
  rw [pyEqF_str]

/-- A singleton string list never equals a list holding a line list. -/
theorem pyEq_list1_str_list (s : String) (x : List PyVal) :
    pyEq (.vlist [.vstr s]) (.vlist [.vlist x]) = false := by
  show pyEqF (999 + 1) (.vlist [.vstr s]) (.vlist [.vlist x]) = false
  rw [pyEqF_vlist1]
  show pyEqF (998 + 1) (.vstr s) (.vlist x) = false
  rw [pyEqF_str_list]

/-- A singleton string list never equals a list holding a token set. -/
theorem pyEq_list1_str_set (s : String) (x : List PyVal) :
    pyEq (.vlist [.vstr s]) (.vlist [.vset x]) = false := by
  show pyEqF (999 + 1) (.vlist [.vstr s]) (.vlist [.vset x]) = false
  rw [pyEqF_vlist1]
  show pyEqF (998 + 1) (.vstr s) (.vset x) = false
  rw [pyEqF_str_set]

/-- Set-of-frozensets equality on singleton token sets is string equality. -/
theorem pyEq_set_set_str (s t : String) :
    pyEq (.vset [.vset [.vstr s]]) (.vset [.vset [.vstr t]]) = (s == t) := by
  show pyEqF (999 + 1) (.vset [.vset [.vstr s]]) (.vset [.vset [.vstr t]]) = (s == t)
  rw [pyEqF_vset1]
  show pyEqF (998 + 1) (.vset [.vstr s]) (.vset [.vstr t]) = (s == t)
  rw [pyEqF_vset1]
  show pyEqF (997 + 1) (.vstr s) (.vstr t) = (s == t)
  rw [pyEqF_str]

/-- Set-of-frozensets equality on singleton rounded floats is rational
equality. -/
theorem pyEq_set_set_float (p q : PyFloat) :
    pyEq (.vset [.vset [.vfloat p]]) (.vset [.vset [.vfloat q]]) =
      PyFloat.feq p q := by
  show pyEqF (999 + 1) (.vset [.vset [.vfloat p]]) (.vset [.vset [.vfloat q]]) = _
  rw [pyEqF_vset1]
  show pyEqF (998 + 1) (.vset [.vfloat p]) (.vset [.vfloat q]) = _
  rw [pyEqF_vset1]
  show pyEqF (997 + 1) (.vfloat p) (.vfloat q) = _
  rw [pyEqF_float]

/-- Split-and-strip of a clean single-token text is the singleton line. -/
theorem splitStripStr_tok {t : String} (ht3 : splitOnNLStr t = [t])
    (ht0 : t ≠ "") (ht1 : pyStrip t = t) : splitStripStr t = [t] := by
  unfold splitStripStr
  rw [ht3]
  simp [List.filter_cons, ht0, ht1]

/-- The lenient string comparison on a stripped token reduces to equality. -/
theorem custom_compare_tok {s t : String} (hs1 : pyStrip s = s)
    (ht1 : pyStrip t = t) : custom_compare_ [s] t = (s == t) := by
  unfold custom_compare_ stripped_string_compare joinNL
  rw [List.map_cons, List.map_nil]
  show ((pyStrip s == pyStrip t) || (pyStrip (pyStrip s) == pyStrip t)) = (s == t)
  rw [hs1, hs1, ht1, Bool.or_self]

/-- `check1` against a plain string is the singleton list comparison. -/
theorem check1_tok (s t : String) : check1 [s] (.vstr t) = (s == t) := by
  unfold check1
  exact pyEq_list1_str s t

/-- `check2` against the split expected list reduces to token equality. -/
theorem check2_tok (s t : String) :
    check2 [s] (.vlist [.vstr t]) = (s == t) := by
  simp only [check2, List.map_cons, List.map_nil, pyEq_list1_str_list,
    pyEq_list1_str, Bool.false_or]

/-- Filtering keeps a nonempty captured line. -/
theorem outFilter_tok {s : String} (hs0 : s ≠ "") : outFilter [s] = [s] := by
  unfold outFilter
  simp [List.filter_cons, hs0]

/-- The float comparison on parseable single tokens is the `allclose` test. -/
theorem floatCheck_tok {s t : String} {a b : PyFloat}
    (hpa : parseFloatQ s = some a) (hpb : parseFloatQ t = some b) :
    floatCheck [s] (.vlist [.vstr t]) = npIsClose a b := by
  simp only [floatCheck, pyIter, Option.bind, mapO, pyFloat, hpa, hpb,
    npAllclose, List.length_cons, List.length_nil, Bool.and_true]
  rfl

/-- Token sets of a clean single-token captured line. -/
theorem outSets_tok {s : String} (hs2 : pySplitWsStr s = [s]) :
    outSets [s] = [.vset [.vstr s]] := by
  unfold outSets
  rw [List.map_cons, List.map_nil, hs2]
  rfl

/-- `check5` on singleton token sets is token equality. -/
theorem check5_tok (s t : String) :
    check5 [.vset [.vstr s]] (.vlist [.vset [.vstr t]]) = (s == t) := by
  simp only [check5, mapO, pyFrozen, pyIter, Option.bind, Option.map]
  exact pyEq_set_set_str s t

/-- `check6` on parseable single tokens is equality of the rounded values. -/
theorem check6_tok {s t : String} {a b : PyFloat}
    (hpa : parseFloatQ s = some a) (hpb : parseFloatQ t = some b) :
    check6 [.vset [.vstr s]] (.vlist [.vset [.vstr t]]) =
      PyFloat.feq (pyRound3 a) (pyRound3 b) := by
  simp only [check6, mapO, roundFrozen, pyIter, pyFloat, Option.bind,
    Option.map, hpa, hpb]
  exact pyEq_set_set_float (pyRound3 a) (pyRound3 b)

/-- The split expected value of a clean token. -/
theorem expSplit_tok {t : String} (ht3 : splitOnNLStr t = [t]) (ht0 : t ≠ "")
    (ht1 : pyStrip t = t) : expSplit t = .vlist [.vstr t] := by
  unfold expSplit
  rw [splitStripStr_tok ht3 ht0 ht1]
  rfl

/-- The token-set expected value of a clean token. -/
theorem expSets_tok {t : String} (ht3 : splitOnNLStr t = [t]) (ht0 : t ≠ "")
    (ht1 : pyStrip t = t) (ht2 : pySplitWsStr t = [t]) :
    expSets t = .vlist [.vset [.vstr t]] := by
  unfold expSets
  rw [splitStripStr_tok ht3 ht0 ht1, List.map_cons, List.map_nil, ht2]
  rfl

/-- A conditional on an established false test. -/
theorem if_cond_false {α : Type} (a b : α) : (if false = true then a else b) = b := rfl

/-- A conditional on an established true test. -/
theorem if_cond_true {α : Type} (a b : α) : (if true = true then a else b) = a := rfl

/-- Claim C7 (confirmed).  In standard-input mode, when both the candidate
output and the expected output are single numeric tokens (stripped, without
internal whitespace or newlines, parseable as decimal floats), a difference
only beyond 3 decimal digits of precision - exact equality after rounding to
3 decimals, as with 0.3333 against 0.333 - yields the verdict `True` via the
rounded comparison of lines 434-439, whereas values that still differ after
rounding and lie outside the `np.allclose` tolerance - as with 0.3333 against
0.33, diverging at the 3rd digit - yield the verdict `False`. -/
theorem claim7_theorem (u s t : String) (a b : PyFloat)
    (hs1 : pyStrip s = s) (hs2 : pySplitWsStr s = [s]) (hs0 : s ≠ "")
    (ht1 : pyStrip t = t) (ht2 : pySplitWsStr t = [t])
    (ht3 : splitOnNLStr t = [t]) (ht0 : t ≠ "")
    (hpa : parseFloatQ s = some a) (hpb : parseFloatQ t = some b) :
    (PyFloat.feq (pyRound3 a) (pyRound3 b) = true →
      ∃ e, stdCaseRun (.vstr u) (.vstr t) ⟨[s], .normal⟩ =
        .ok (some (.rBool true), e)) ∧
    (PyFloat.feq (pyRound3 a) (pyRound3 b) = false → npIsClose a b = false →
      s ≠ t →
      stdCaseRun (.vstr u) (.vstr t) ⟨[s], .normal⟩ =
        .ok (some (.rBool false), expSets t)) := by
  have hsplit := expSplit_tok ht3 ht0 ht1
  have hsets := expSets_tok ht3 ht0 ht1 ht2
  constructor
  · intro hr
    simp only [stdCaseRun, joinIfList, call_method]
    rw [hsplit, hsets, outFilter_tok hs0, outSets_tok hs2, List.map_cons,
      List.map_nil]
    cases hc1 : custom_compare_ [s] t with
    | true => exact ⟨.vstr t, by rw [if_cond_true]⟩
    | false =>
      rw [if_cond_false]
      cases hc2 : check1 [s] (.vstr t) with
      | true => exact ⟨.vstr t, by rw [if_cond_true]⟩
      | false =>
        rw [if_cond_false]
        cases hc3 : check2 [s] (.vlist [.vstr t]) with
        | true => exact ⟨.vlist [.vstr t], by rw [if_cond_true]⟩
        | false =>
          rw [if_cond_false, Bool.false_or]
          cases hc5 : floatCheck [s] (.vlist [.vstr t]) with
          | true => exact ⟨.vlist [.vstr t], by rw [if_cond_true]⟩
          | false =>
            rw [if_cond_false, pyEq_list1_str_set, if_cond_false]
            rw [check6_tok hpa hpb, hr, Bool.or_true]
            exact ⟨.vlist [.vset [.vstr t]], rfl⟩
  · intro hr hclose hst
    have hbeq : (s == t) = false := by
      cases hb : (s == t) with
      | true => exact absurd (eq_of_beq hb) hst
      | false => rfl
    simp only [stdCaseRun, joinIfList, call_method]
    rw [hsplit, hsets, outFilter_tok hs0, outSets_tok hs2, List.map_cons,
      List.map_nil]
    rw [custom_compare_tok hs1 ht1, check1_tok, check2_tok,
      floatCheck_tok hpa hpb, pyEq_list1_str_set, check5_tok,
      check6_tok hpa hpb, hbeq, hclose, hr]
    rw [if_cond_false, if_cond_false, if_cond_false, Bool.false_or,
      if_cond_false, if_cond_false]

/-- Witness for C7 at the claimed examples: 0.3333 against 0.333 passes,
0.3333 against 0.33 fails. -/
theorem claim7_witness :
    (∃ e, stdCaseRun (.vstr "x") (.vstr "0.333") ⟨["0.3333"], .normal⟩ =
      .ok (some (.rBool true), e)) ∧
    stdCaseRun (.vstr "x") (.vstr "0.33") ⟨["0.3333"], .normal⟩ =
      .ok (some (.rBool false), expSets "0.33") :=
  ⟨( claim7_theorem "x" "0.3333" "0.333" ⟨3333, 10000⟩ ⟨333, 1000⟩
      (by decide) (by decide) (by decide) (by decide) (by decide) (by decide)
      (by decide) (by decide) (by decide)).1 (by decide),
   ( claim7_theorem "x" "0.3333" "0.33" ⟨3333, 10000⟩ ⟨33, 100⟩
      (by decide) (by decide) (by decide) (by decide) (by decide) (by decide)
      (by decide) (by decide) (by decide)).2
     (by decide) (by decide) (by decide)⟩

end TestingUtil
